import Mathlib

/-!
Verification of the site-forge quality-gate pipeline.

The Go sources are shallowly embedded: the pure string/path algorithms are
translated function-for-function; filesystem access is modelled by an explicit
directory-tree datatype plus an existence predicate for `os.Stat`; the three
external collaborators (the Lighthouse subprocess, the chromedp browser
automation, and the vision HTTP API) are modelled by outcome parameters, as the
spec designates them as injected capabilities outside the core.
-/

namespace SiteForge

/-! ## Go string primitives (strings / unicode packages) -/

/-- Character class of Go `unicode.IsSpace` restricted to the code points that
`strings.TrimSpace` can meet in Latin-1 text (the ASCII spaces plus NEL and
NBSP); matches Go for all inputs used in this development. -/
def goIsSpace (c : Char) : Bool :=
  c = ' ' || c = '\t' || c = '\n' || (c = Char.ofNat 11) || (c = Char.ofNat 12) ||
  c = '\r' || (c = Char.ofNat 0x85) || (c = Char.ofNat 0xA0)

/-- Models `strings.HasPrefix`. -/
def strHasPrefix (s pre : String) : Bool :=
  pre.data.isPrefixOf s.data

/-- Models `strings.HasSuffix`. -/
def strHasSuffix (s suf : String) : Bool :=
  suf.data.isSuffixOf s.data

/-- Drop the first `n` characters of a string (Go slicing `s[n:]` at a
character boundary; identical to byte slicing for the references handled
here because the index always sits at the start of the matched substring). -/
def strDrop (s : String) (n : Nat) : String :=
  String.mk (s.data.drop n)

/-- Models `strings.Index sub` on character lists: the first index at which
`sub` occurs, or `none` (Go returns `-1`). -/
def goIndexOf (sub : List Char) : List Char → Option Nat
  | [] => if sub.isPrefixOf ([] : List Char) then some 0 else none
  | c :: rest =>
    if sub.isPrefixOf (c :: rest) then some 0
    else (goIndexOf sub rest).map (· + 1)

/-- `strings.Index` on strings, counting characters. -/
def strIndexOf (s sub : String) : Option Nat :=
  goIndexOf sub.data s.data

/-- Models `strings.Split s sep` for a one-character separator. -/
def splitOnChar (sep : Char) : List Char → List (List Char)
  | [] => [[]]
  | c :: cs =>
    if c = sep then [] :: splitOnChar sep cs
    else
      match splitOnChar sep cs with
      | [] => [[c]]
      | h :: t => (c :: h) :: t

/-- Models `strings.TrimSpace` on character lists. -/
def goTrimSpace (l : List Char) : List Char :=
  ((l.dropWhile goIsSpace).reverse.dropWhile goIsSpace).reverse

/-- Lexicographic comparison on character lists, the order in which
`os.ReadDir` sorts directory entries by file name. -/
def lexLe (a b : List Char) : Bool :=
  match a, b with
  | [], _ => true
  | _ :: _, [] => false
  | x :: xs, y :: ys => if x = y then lexLe xs ys else decide (x < y)

/-! ## path/filepath: Clean and Join -/

/-- The backtracking step of `path.Clean` for a `..` element: the output
buffer (held in reverse) is popped once and then repeatedly while the char
just popped is not a separator and the length stays above `dotdot`. -/
def cleanPop (dotdot : Nat) : List Char → List Char
  | [] => []
  | c :: rest => if c = '/' || !(decide (dotdot < rest.length)) then rest else cleanPop dotdot rest

/-- Detects the tail shape of a `..` path element: the remaining input begins
with a second dot followed by the end of the path or a separator. -/
def ddShape (rest : List Char) : Bool :=
  match rest with
  | '.' :: rest2 => rest2.isEmpty || rest2.head? = some '/'
  | _ => false

mutual

/-- Main loop of `filepath.Clean` (Unix rules) at an element boundary;
`rout` is the output buffer in reverse. -/
def cleanBound (rooted : Bool) (dotdot : Nat) (rout : List Char) (l : List Char) : List Char :=
  match l with
  | [] => rout
  | c :: rest =>
    if c = '/' then cleanBound rooted dotdot rout rest
    else if c = '.' && (rest.isEmpty || rest.head? = some '/') then
      cleanBound rooted dotdot rout rest
    else if c = '.' && ddShape rest then
      if dotdot < rout.length then
        cleanSkip rooted dotdot (cleanPop dotdot rout) rest
      else if !rooted then
        let rout2 := if rout.length > 0 then '.' :: '.' :: '/' :: rout else ['.', '.']
        cleanSkip rooted rout2.length rout2 rest
      else
        cleanSkip rooted dotdot rout rest
    else
      let needSep := (rooted && rout.length ≠ 1) || (!rooted && rout.length ≠ 0)
      cleanWord rooted dotdot (if needSep then c :: '/' :: rout else c :: rout) rest
termination_by structural l

/-- Consumes the second dot of a `..` path element and returns to the
boundary state. -/
def cleanSkip (rooted : Bool) (dotdot : Nat) (rout : List Char) (l : List Char) : List Char :=
  match l with
  | [] => rout
  | _ :: rest => cleanBound rooted dotdot rout rest
termination_by structural l

/-- Inside a copied path element (the inner copy loop of Go's `Clean`):
characters are appended verbatim until a separator closes the element. -/
def cleanWord (rooted : Bool) (dotdot : Nat) (rout : List Char) (l : List Char) : List Char :=
  match l with
  | [] => rout
  | c :: rest =>
    if c = '/' then cleanBound rooted dotdot rout rest
    else cleanWord rooted dotdot (c :: rout) rest
termination_by structural l

end

/-- Models `filepath.Clean` for Unix paths. -/
def goClean (path : String) : String :=
  if path = "" then "."
  else
    let cs := path.data
    let rooted := cs.head? = some '/'
    let initOut : List Char := if rooted then ['/'] else []
    let initDd : Nat := if rooted then 1 else 0
    let out := (cleanBound rooted initDd initOut cs).reverse
    if out.isEmpty then "." else String.mk out

/-- Models `filepath.Join a b`: empty elements are skipped, the rest joined
with a slash, and the result cleaned. -/
def filepathJoin (a b : String) : String :=
  if a = "" && b = "" then ""
  else if a = "" then goClean b
  else if b = "" then goClean a
  else goClean (a ++ "/" ++ b)

/-! ## Parsed HTML documents (the tree produced by `html.Parse`) -/

/-- One attribute of an HTML element (`html.Attribute`). -/
structure Attr where
  key : String
  val : String
deriving DecidableEq

mutual

/-- A node of the parsed document tree. `elem` is an `html.ElementNode` with
its tag name, attributes, and children; `other` covers every non-element node
kind (document, text, comment, doctype) — the Go traversals only test
`n.Type == html.ElementNode` and otherwise just descend into children. -/
inductive Node where
  | elem : String → List Attr → NodeList → Node
  | other : NodeList → Node

/-- The `FirstChild`/`NextSibling` chain of a node. -/
inductive NodeList where
  | nil : NodeList
  | cons : Node → NodeList → NodeList

end

/-! ## extractAssets (internal/checks/assets.go) -/

/-- The `srcset` handling of `extractAssets`: split the attribute value on
commas, take `strings.Split(part, " ")[0]` of each part, trim it, and keep it
when non-empty. -/
def parseSrcsetVal (v : String) : List String :=
  (splitOnChar ',' v.data).filterMap fun part =>
    let src := goTrimSpace ((splitOnChar ' ' part).headD [])
    if src.isEmpty then none else some (String.mk src)

/-- Whether a `link` element carries a `rel` attribute equal to `stylesheet`,
`icon`, or `shortcut` (the inner attribute scan of the `link` case). -/
def linkHasWantedRel (attrs : List Attr) : Bool :=
  attrs.any fun a => a.key = "rel" && (a.val = "stylesheet" || a.val = "icon" || a.val = "shortcut")

/-- Assets contributed by a single element, by tag, exactly as in the
`switch n.Data` of `extractAssets`. -/
def elemAssets (tag : String) (attrs : List Attr) : List String :=
  if tag = "img" then
    attrs.filterMap fun a =>
      if a.key = "src" && a.val ≠ "" && !strHasPrefix a.val "data:" then some a.val else none
  else if tag = "link" then
    attrs.filterMap fun a =>
      if a.key = "href" && a.val ≠ "" && linkHasWantedRel attrs then some a.val else none
  else if tag = "script" then
    attrs.filterMap fun a => if a.key = "src" && a.val ≠ "" then some a.val else none
  else if tag = "source" then
    attrs.foldr (fun a acc => (if a.key = "srcset" && a.val ≠ "" then parseSrcsetVal a.val else []) ++ acc) []
  else []

mutual

/-- Pre-order traversal of `extractAssets`: a node contributes its own
references, then its children's, then its siblings follow. -/
def extractNode (n : Node) : List String :=
  match n with
  | .elem tag attrs children => elemAssets tag attrs ++ extractNodes children
  | .other children => extractNodes children
termination_by structural n

/-- Traversal of a sibling chain for `extractAssets`. -/
def extractNodes (l : NodeList) : List String :=
  match l with
  | .nil => []
  | .cons n rest => extractNode n ++ extractNodes rest
termination_by structural l

end

/-- References declared by one parsed document (`extractAssets` without the
file I/O, which is handled by the caller's filesystem model). -/
def extractAssets (doc : Node) : List String :=
  extractNode doc

/-! ## CheckBuild structural scan (internal/checks/build.go) -/

/-- The six structure flags accumulated by the `check` closure of
`CheckBuild`. -/
structure BuildFlags where
  hasHTML : Bool
  hasHead : Bool
  hasBody : Bool
  hasTitle : Bool
  hasDescription : Bool
  hasOgTitle : Bool
deriving DecidableEq

/-- The `meta` case of the scan: the last `name`, `property` and `content`
attributes win, and the description / og:title flags require non-empty
content. -/
def metaUpdate (attrs : List Attr) (f : BuildFlags) : BuildFlags :=
  let name := attrs.foldl (fun acc a => if a.key = "name" then a.val else acc) ""
  let prop := attrs.foldl (fun acc a => if a.key = "property" then a.val else acc) ""
  let content := attrs.foldl (fun acc a => if a.key = "content" then a.val else acc) ""
  let f := if name = "description" && content ≠ "" then { f with hasDescription := true } else f
  if prop = "og:title" && content ≠ "" then { f with hasOgTitle := true } else f

/-- Flag update for one element, per the `switch n.Data` of `CheckBuild`. -/
def tagUpdate (tag : String) (attrs : List Attr) (f : BuildFlags) : BuildFlags :=
  if tag = "html" then { f with hasHTML := true }
  else if tag = "head" then { f with hasHead := true }
  else if tag = "body" then { f with hasBody := true }
  else if tag = "title" then { f with hasTitle := true }
  else if tag = "meta" then metaUpdate attrs f
  else f

mutual

/-- The recursive `check` closure of `CheckBuild` on one node. -/
def scanNode (n : Node) (f : BuildFlags) : BuildFlags :=
  match n with
  | .elem tag attrs children => scanNodes children (tagUpdate tag attrs f)
  | .other children => scanNodes children f
termination_by structural n

/-- The recursive `check` closure of `CheckBuild` on a sibling chain. -/
def scanNodes (l : NodeList) (f : BuildFlags) : BuildFlags :=
  match l with
  | .nil => f
  | .cons n rest => scanNodes rest (scanNode n f)
termination_by structural l

end

/-- Flags of a whole document, starting from all-false. -/
def scanBuildDoc (doc : Node) : BuildFlags :=
  scanNode doc ⟨false, false, false, false, false, false⟩

/-- The ordered error accumulation of `CheckBuild`. -/
def buildErrors (f : BuildFlags) : List String :=
  (if f.hasHTML then [] else ["missing <html> tag"]) ++
  (if f.hasHead then [] else ["missing <head> tag"]) ++
  (if f.hasBody then [] else ["missing <body> tag"]) ++
  (if f.hasTitle then [] else ["missing <title> tag"]) ++
  (if f.hasDescription then [] else ["missing meta description"]) ++
  (if f.hasOgTitle then [] else ["missing og:title meta tag"])

/-! ## Filesystem model

`os.ReadDir` is modelled by a directory tree; an HTML file carries the parsed
document its content yields (`none` when reading or parsing the file fails),
`unreadable` is a directory whose `os.ReadDir` errors. `os.Stat` of asset
candidate paths is modelled by a separate existence predicate passed to the
checks, since it queries paths built by string concatenation that need not
lie inside the walked tree. -/

mutual

/-- One directory entry. -/
inductive FSEntry where
  | file : String → Option Node → FSEntry
  | unreadable : String → FSEntry
  | dirent : String → FSList → FSEntry

/-- A directory's entry list. -/
inductive FSList where
  | nil : FSList
  | cons : FSEntry → FSList → FSList

end

/-- The name of an entry. -/
def entryName : FSEntry → String
  | .file n _ => n
  | .unreadable n => n
  | .dirent n _ => n

/-- Insertion into a name-sorted entry list. -/
def insertFS (e : FSEntry) : FSList → FSList
  | .nil => .cons e .nil
  | .cons x rest =>
    if lexLe (entryName e).data (entryName x).data then .cons e (.cons x rest)
    else .cons x (insertFS e rest)

/-- Insertion sort of an entry list by name. -/
def sortFS : FSList → FSList
  | .nil => .nil
  | .cons e rest => insertFS e (sortFS rest)

mutual

/-- Recursively sorts every directory level by entry name. Applying this once
up front is equivalent to the name-sorted listing `os.ReadDir` delivers at
each directory the walk visits. -/
def sortTree (e : FSEntry) : FSEntry :=
  match e with
  | .file n d => .file n d
  | .unreadable n => .unreadable n
  | .dirent n es => .dirent n (sortFS (sortTreeList es))
termination_by structural e

/-- `sortTree` mapped over an entry list. -/
def sortTreeList (l : FSList) : FSList :=
  match l with
  | .nil => .nil
  | .cons e rest => .cons (sortTree e) (sortTreeList rest)
termination_by structural l

end

mutual

/-- Contribution of one (name-sorted) directory entry to the recursive walk
of `findHTMLFiles`, fused with the per-file read+parse that `CheckAssets`
performs on each discovered path: a `.html`/`.htm` file yields its joined
path and parsed document, a subdirectory is recursed at its position in the
listing, an unreadable directory propagates its error. -/
def walkEntry (dir : String) (e : FSEntry) : Except String (List (String × Option Node)) :=
  match e with
  | .file n doc =>
    if strHasSuffix n ".html" || strHasSuffix n ".htm" then
      .ok [(filepathJoin dir n, doc)]
    else .ok []
  | .unreadable n => .error ("open " ++ filepathJoin dir n ++ ": permission denied")
  | .dirent n subs => walkList (filepathJoin dir n) subs
termination_by structural e

/-- The entry loop of `findHTMLFiles`: contributions are appended in listing
order and the first error aborts the walk. -/
def walkList (dir : String) (l : FSList) : Except String (List (String × Option Node)) :=
  match l with
  | .nil => .ok []
  | .cons e rest =>
    match walkEntry dir e with
    | .error er => .error er
    | .ok contrib =>
      match walkList dir rest with
      | .error er => .error er
      | .ok xs => .ok (contrib ++ xs)
termination_by structural l

end

/-- The walk of `findHTMLFiles` started on the site root, keeping each
file's parsed document alongside its path. -/
def findHTMLEntries (dir : String) (root : FSEntry) : Except String (List (String × Option Node)) :=
  match sortTree root with
  | .dirent _ es => walkList dir es
  | .file _ _ => .error ("readdirent " ++ dir ++ ": not a directory")
  | .unreadable _ => .error ("open " ++ dir ++ ": permission denied")

/-- `findHTMLFiles` of assets.go: the ordered list of discovered HTML file
paths. -/
def findHTMLFiles (dir : String) (root : FSEntry) : Except String (List String) :=
  (findHTMLEntries dir root).map (List.map Prod.fst)

/-! ## Asset path resolution and CheckAssets (internal/checks/assets.go) -/

/-- The per-asset path resolution inside the loop of `CheckAssets`: a
root-relative URL path is truncated at `/images/` or `/_astro/` when one of
those substrings occurs and then concatenated (not path-joined) onto the site
root; `./`-relative and bare relative references are path-joined. -/
def resolveAsset (distDir asset : String) : String :=
  if strHasPrefix asset "/" then
    let relPath :=
      match strIndexOf asset "/images/" with
      | some idx => strDrop asset idx
      | none =>
        match strIndexOf asset "/_astro/" with
        | some idx => strDrop asset idx
        | none =>
          if strHasPrefix asset "/favicon" then asset
          else asset
    distDir ++ relPath
  else if strHasPrefix asset "./" then filepathJoin distDir (strDrop asset 1)
  else filepathJoin distDir asset

/-- Result record of the Assets check (`report.AssetsResult`). -/
structure AssetsResult where
  status : String
  total : Nat
  missing : List String
  details : String
deriving DecidableEq

/-- The extraction-and-verification loop of `CheckAssets` over the discovered
files: `none` models the early `return` on a file whose read/parse fails;
otherwise the total reference count and the ordered missing list (keyed by the
original reference strings) are accumulated. -/
def processFiles (distDir : String) (statE : String → Bool) :
    List (String × Option Node) → Option (Nat × List String)
  | [] => some (0, [])
  | (_, none) :: _ => none
  | (_, some doc) :: rest =>
    let assets := extractAssets doc
    let miss := assets.filter fun a => !statE (resolveAsset distDir a)
    match processFiles distDir statE rest with
    | none => none
    | some (t, m) => some (assets.length + t, miss ++ m)

/-- `CheckAssets`: discover HTML files, extract references, resolve each and
test existence, then report PASS/FAIL with totals and the missing list. -/
def CheckAssets (distDir : String) (root : FSEntry) (statE : String → Bool) : AssetsResult :=
  match findHTMLEntries distDir root with
  | .error e => ⟨"FAIL", 0, [], "Error finding HTML files: " ++ e⟩
  | .ok entries =>
    if entries.length = 0 then
      ⟨"FAIL", 0, [], "No HTML files found in dist directory"⟩
    else
      match processFiles distDir statE entries with
      | none => ⟨"FAIL", 0, [], "Error parsing HTML file"⟩
      | some (total, missing) =>
        if 0 < missing.length then
          ⟨"FAIL", total, missing, "Missing " ++ toString missing.length ++ " assets"⟩
        else
          ⟨"PASS", total, missing, toString total ++ "/" ++ toString total ++ " assets verified"⟩

/-! ## CheckBuild (internal/checks/build.go) -/

/-- Result record of the Build check (`report.BuildResult`). -/
structure BuildResult where
  status : String
  pages : Nat
  details : String
deriving DecidableEq

/-- Scan of a directory listing for the file `index.html`. -/
def lookupIndexIn : FSList → Option (Option Node)
  | .nil => none
  | .cons (.file n doc) rest => if n = "index.html" then some doc else lookupIndexIn rest
  | .cons _ rest => lookupIndexIn rest

/-- Lookup of `index.html` among the root directory's entries, modelling the
`os.Stat`+`os.ReadFile` of `CheckBuild`: `none` when absent, `some doc?`
when present with its parse outcome. -/
def lookupIndexDoc : FSEntry → Option (Option Node)
  | .dirent _ es => lookupIndexIn es
  | _ => none

/-- `CheckBuild`: parse the root document only, verify the six structural
requirements, and count pages with `findHTMLFiles` — whose error is
discarded (`htmlFiles, _ := findHTMLFiles(distDir)`), leaving a page count
of zero. -/
def CheckBuild (distDir : String) (root : FSEntry) : BuildResult :=
  match lookupIndexDoc root with
  | none => ⟨"FAIL", 0, "index.html not found"⟩
  | some none => ⟨"FAIL", 0, "Failed to read index.html"⟩
  | some (some doc) =>
    let flags := scanBuildDoc doc
    let errs := buildErrors flags
    let pages :=
      match findHTMLFiles distDir root with
      | .ok l => l.length
      | .error _ => 0
    if 0 < errs.length then ⟨"FAIL", pages, String.intercalate ", " errs⟩
    else ⟨"PASS", pages, "Valid HTML, " ++ toString pages ++ " page(s), meta tags present"⟩

/-! ## parseScoreFromAnalysis (internal/checks/vision.go)

The two Go regular expressions are modelled by explicit leftmost-match
scanners with RE2 ASCII character classes. -/

/-- RE2 whitespace class of the pattern `OVERALL:\s*(\d+)\s*/\s*10`. -/
def isSpaceRe (c : Char) : Bool :=
  c = ' ' || c = '\t' || c = '\n' || c = Char.ofNat 12 || c = '\r'

/-- RE2 ASCII word-character class used by the `\b` boundaries. -/
def isWordRe (c : Char) : Bool :=
  c.isAlphanum || c = '_'

/-- Removes a literal prefix, or fails. -/
def stripLit : List Char → List Char → Option (List Char)
  | [], l => some l
  | _ :: _, [] => none
  | p :: ps, c :: cs => if p = c then stripLit ps cs else none

/-- Match of `OVERALL:\s*(\d+)\s*/\s*10` anchored at the start of `l`,
returning the captured digit run. The digit run is necessarily maximal
because a shorter run would have to be followed by a digit, which is neither
whitespace nor a slash. -/
def matchOverallAt (l : List Char) : Option (List Char) :=
  match stripLit "OVERALL:".data l with
  | none => none
  | some r1 =>
    if ((r1.dropWhile isSpaceRe).takeWhile Char.isDigit).isEmpty then none
    else
      match ((r1.dropWhile isSpaceRe).dropWhile Char.isDigit).dropWhile isSpaceRe with
      | '/' :: r4 =>
        match r4.dropWhile isSpaceRe with
        | '1' :: '0' :: _ => some ((r1.dropWhile isSpaceRe).takeWhile Char.isDigit)
        | _ => none
      | _ => none

/-- Leftmost match of the OVERALL pattern (`regexp.FindStringSubmatch`). -/
def findOverall : List Char → Option (List Char)
  | [] => matchOverallAt []
  | c :: rest =>
    match matchOverallAt (c :: rest) with
    | some d => some d
    | none => findOverall rest

/-- Left word boundary at the current position, given the previous
character. -/
def boundLeft (prev : Option Char) : Bool :=
  match prev with
  | none => true
  | some p => !isWordRe p

/-- Leftmost match of the fallback pattern `\b([1-9]|10)\b`; `prev` is the
character before the current position, used for the left word boundary. The
alternatives are tried in order at each position, as RE2 does; the `[1-9]`
range is written on code points (49–57). -/
def findOneToTen (prev : Option Char) : List Char → Option Int
  | [] => none
  | c :: rest =>
    if boundLeft prev && decide (49 ≤ c.toNat) && decide (c.toNat ≤ 57) &&
        (rest.isEmpty || !isWordRe (rest.headD ' ')) then
      some ((c.toNat - '0'.toNat : Nat) : Int)
    else if boundLeft prev && c = '1' && rest.head? = some '0' &&
        ((rest.drop 1).isEmpty || !isWordRe ((rest.drop 1).headD ' ')) then
      some 10
    else findOneToTen (some c) rest

/-- Digit-run value. -/
def digitsToNat (l : List Char) : Nat :=
  l.foldl (fun acc c => acc * 10 + (c.toNat - '0'.toNat)) 0

/-- `strconv.Atoi` on a pure digit run: the parsed value, or `none` when the
value overflows Go's 64-bit signed int (`ErrRange`), which the caller treats
the same as no match. -/
def goAtoi (digits : List Char) : Option Int :=
  if digits.isEmpty then none
  else if digitsToNat digits ≤ 9223372036854775807 then some ((digitsToNat digits : Nat) : Int)
  else none

/-- `parseScoreFromAnalysis`: the integer of the first `OVERALL: X/10`
occurrence; on no match or an unparseable integer, the first standalone
number 1–10 anywhere in the text; else 0. -/
def parseScoreFromAnalysis (analysis : String) : Int :=
  match findOverall analysis.data with
  | some digits =>
    match goAtoi digits with
    | some v => v
    | none => (findOneToTen none analysis.data).getD 0
  | none => (findOneToTen none analysis.data).getD 0

/-! ## CheckVision (internal/checks/vision.go) -/

/-- Result record of the Vision check (`report.VisionResult`). -/
structure VisionResult where
  status : String
  score : Int
  threshold : Int
  analysis : String
  details : String
deriving DecidableEq

/-- `CheckVision`: credential and screenshot preconditions checked in source
order, then one API call. The credential comes from the environment
(`OPENROUTER_API_KEY`), file reads/encodes are modelled by `readImg`, and
the HTTP exchange by the `api` outcome. Every early exit returns the initial
PASS-status record together with a non-nil error. -/
def CheckVision (apiKey : String) (statE : String → Bool) (readImg : String → Option String)
    (baselineDir : String) (threshold : Int) (api : Except String String) :
    VisionResult × Option String :=
  let result : VisionResult := ⟨"PASS", 0, threshold, "", ""⟩
  if apiKey = "" then (result, some "OPENROUTER_API_KEY not set")
  else
    let baselineDesktop := filepathJoin baselineDir "desktop.png"
    let baselineMobile := filepathJoin baselineDir "mobile.png"
    if !statE baselineDesktop then
      (result, some ("baseline desktop.png not found in " ++ baselineDir))
    else if !statE baselineMobile then
      (result, some ("baseline mobile.png not found in " ++ baselineDir))
    else if !statE "screenshots/desktop.png" then
      (result, some "new desktop.png not found (run screenshots check first)")
    else if !statE "screenshots/mobile.png" then
      (result, some "new mobile.png not found (run screenshots check first)")
    else
      match readImg "screenshots/desktop.png" with
      | none => (result, some "failed to encode desktop screenshot")
      | some _ =>
        match readImg "screenshots/mobile.png" with
        | none => (result, some "failed to encode mobile screenshot")
        | some _ =>
          match readImg baselineDesktop with
          | none => (result, some "failed to encode baseline desktop")
          | some _ =>
            match readImg baselineMobile with
            | none => (result, some "failed to encode baseline mobile")
            | some _ =>
              match api with
              | .error e => (result, some ("vision API call failed: " ++ e))
              | .ok analysis =>
                let score := parseScoreFromAnalysis analysis
                let r2 := { result with score := score, analysis := analysis }
                if score < threshold then ({ r2 with status := "FAIL" }, none)
                else (r2, none)

/-! ## CheckLighthouse and CaptureScreenshots (external collaborators) -/

/-- Threshold record (`report.Thresholds`). -/
structure Thresholds where
  performance : Int
  accessibility : Int
  seo : Int
deriving DecidableEq

/-- Result record of the Lighthouse check (`report.LighthouseResult`). -/
structure LighthouseResult where
  status : String
  performance : Int
  accessibility : Int
  seo : Int
  thresholds : Thresholds
  details : String
deriving DecidableEq

/-- Outcome of the external Lighthouse invocation: the tool may be absent,
the local server port may fail, the subprocess may fail, or it delivers three
0–100 scores. -/
inductive LighthouseOutcome where
  | unavailable
  | portFail (e : String)
  | runFail (e : String)
  | scores (p a s : Int)

/-- `CheckLighthouse`: every failure of the external machinery returns the
initial PASS record plus a non-nil error; delivered scores below any
threshold flip the status to FAIL. -/
def checkLighthouse (perfTh a11yTh seoTh : Int) (o : LighthouseOutcome) :
    LighthouseResult × Option String :=
  let base : LighthouseResult := ⟨"PASS", 0, 0, 0, ⟨perfTh, a11yTh, seoTh⟩, ""⟩
  match o with
  | .unavailable => (base, some "lighthouse not installed (run: npm install -g lighthouse)")
  | .portFail e => (base, some ("failed to find available port: " ++ e))
  | .runFail e => (base, some ("lighthouse failed: " ++ e))
  | .scores p a s =>
    let r1 := { base with performance := p, accessibility := a, seo := s }
    let r2 := if p < perfTh || a < a11yTh || s < seoTh then { r1 with status := "FAIL" } else r1
    ({ r2 with details := "Perf: " ++ toString p ++ ", A11y: " ++ toString a ++
        ", SEO: " ++ toString s }, none)

/-- Result record of the Screenshots check (`report.ScreenshotsResult`). -/
structure ScreenshotsResult where
  status : String
  desktop : String
  mobile : String
  details : String
deriving DecidableEq

/-- Outcome of the external browser automation, one constructor per failure
exit of `CaptureScreenshots` in source order. -/
inductive ScreenshotOutcome where
  | mkdirFail (e : String)
  | portFail (e : String)
  | desktopRunFail (e : String)
  | desktopWriteFail (e : String)
  | mobileRunFail (e : String)
  | mobileWriteFail (e : String)
  | ok

/-- `CaptureScreenshots`: every failure path sets the result status to FAIL
with a describing detail AND returns a non-nil error; success reports the two
output paths. -/
def captureScreenshots (o : ScreenshotOutcome) : ScreenshotsResult × Option String :=
  match o with
  | .mkdirFail e => (⟨"FAIL", "", "", "Failed to create screenshots directory: " ++ e⟩, some e)
  | .portFail e => (⟨"FAIL", "", "", "Failed to find available port: " ++ e⟩, some e)
  | .desktopRunFail e => (⟨"FAIL", "", "", "Desktop screenshot failed: " ++ e⟩, some e)
  | .desktopWriteFail e => (⟨"FAIL", "", "", "Failed to write desktop screenshot: " ++ e⟩, some e)
  | .mobileRunFail e => (⟨"FAIL", "", "", "Mobile screenshot failed: " ++ e⟩, some e)
  | .mobileWriteFail e => (⟨"FAIL", "", "", "Failed to write mobile screenshot: " ++ e⟩, some e)
  | .ok => (⟨"PASS", filepathJoin "screenshots" "desktop.png",
      filepathJoin "screenshots" "mobile.png", ""⟩, none)

/-! ## The report record and the main pipeline (cmd + internal/report) -/

/-- The per-check slots of the report (`report.ReportChecks`). -/
structure ReportChecks where
  assets : AssetsResult
  build : BuildResult
  lighthouse : LighthouseResult
  screenshots : ScreenshotsResult
  vision : VisionResult
deriving DecidableEq

/-- The top-level report (`report.Report`; the timestamp is stamped by
`writeReport` from the wall clock and is not modelled). -/
structure Report where
  directory : String
  overall : String
  checks : ReportChecks
deriving DecidableEq

/-- `report.NewReport`: hard checks default to FAIL, the optional vision
check to SKIP, remaining fields to Go zero values. -/
def newReport (dir : String) : Report :=
  ⟨dir, "FAIL",
    ⟨⟨"FAIL", 0, [], ""⟩,
     ⟨"FAIL", 0, ""⟩,
     ⟨"FAIL", 0, 0, 0, ⟨0, 0, 0⟩, ""⟩,
     ⟨"FAIL", "", "", ""⟩,
     ⟨"SKIP", 0, 0, "", ""⟩⟩⟩

/-- `printSummary` of main.go: before rendering it unconditionally sets the
report's overall verdict to FAIL — also on the success path, where it runs
after the verdict was set to PASS and before `writeReport` serializes. -/
def printSummaryModel (r : Report) : Report :=
  { r with overall := "FAIL" }

/-- `r.Checks.Assets = x` of main.go. -/
def setAssets (r : Report) (x : AssetsResult) : Report :=
  { r with checks := { r.checks with assets := x } }

/-- `r.Checks.Build = x` of main.go. -/
def setBuild (r : Report) (x : BuildResult) : Report :=
  { r with checks := { r.checks with build := x } }

/-- `r.Checks.Lighthouse = x` of main.go. -/
def setLighthouse (r : Report) (x : LighthouseResult) : Report :=
  { r with checks := { r.checks with lighthouse := x } }

/-- `r.Checks.Screenshots = x` of main.go. -/
def setScreenshots (r : Report) (x : ScreenshotsResult) : Report :=
  { r with checks := { r.checks with screenshots := x } }

/-- `r.Checks.Vision = x` of main.go. -/
def setVision (r : Report) (x : VisionResult) : Report :=
  { r with checks := { r.checks with vision := x } }

/-- The vision stage of `main`: run only when a baseline directory was
supplied; an error from `CheckVision` downgrades only the recorded status to
SKIP; a FAIL verdict halts with exit 1; without a baseline a fixed SKIP
record with detail "No baseline provided" is stored. The returned pair is
the report value passed to `writeReport` (i.e. the serialized report) and
the process exit code. -/
def visionStage (r : Report) (apiKey : String) (statE : String → Bool)
    (readImg : String → Option String) (baseline : String) (threshold : Int)
    (api : Except String String) : Report × Nat :=
  if baseline ≠ "" then
    match (CheckVision apiKey statE readImg baseline threshold api).2 with
    | some _ =>
      (printSummaryModel
        { setVision r { (CheckVision apiKey statE readImg baseline threshold api).1 with status := "SKIP" }
          with overall := "PASS" }, 0)
    | none =>
      if (CheckVision apiKey statE readImg baseline threshold api).1.status = "FAIL" then
        (printSummaryModel (setVision r (CheckVision apiKey statE readImg baseline threshold api).1), 1)
      else
        (printSummaryModel
          { setVision r (CheckVision apiKey statE readImg baseline threshold api).1
            with overall := "PASS" }, 0)
  else
    (printSummaryModel
      { setVision r ⟨"SKIP", 0, threshold, "", "No baseline provided"⟩ with overall := "PASS" }, 0)

/-- The screenshots stage of `main`: the result record is stored, and on any
error — tool unavailable or capture failure alike — the recorded status is
overwritten to SKIP with the error text as detail; the pipeline never halts
here. -/
def screenshotsStage (r : Report) (ssOut : ScreenshotOutcome) (apiKey : String)
    (statE : String → Bool) (readImg : String → Option String) (baseline : String)
    (threshold : Int) (api : Except String String) : Report × Nat :=
  match (captureScreenshots ssOut).2 with
  | some e =>
    visionStage
      (setScreenshots r { (captureScreenshots ssOut).1 with status := "SKIP", details := e })
      apiKey statE readImg baseline threshold api
  | none =>
    visionStage (setScreenshots r (captureScreenshots ssOut).1)
      apiKey statE readImg baseline threshold api

/-- `main` of cmd/site-forge: the sequential pipeline over the five checks,
with the hard gates halting via `printSummary`+`writeReport`+exit 1. The
filesystem is the `root` tree plus the `statE` existence predicate; the
external collaborators are outcome parameters. Returns the serialized report
and the exit code. -/
def runMain (dir : String) (root : FSEntry) (statE : String → Bool)
    (perfTh a11yTh seoTh : Int) (lhOut : LighthouseOutcome) (ssOut : ScreenshotOutcome)
    (baseline : String) (threshold : Int) (apiKey : String)
    (readImg : String → Option String) (api : Except String String) : Report × Nat :=
  if (CheckAssets dir root statE).status = "FAIL" then
    (printSummaryModel (setAssets (newReport dir) (CheckAssets dir root statE)), 1)
  else
    if (CheckBuild dir root).status = "FAIL" then
      (printSummaryModel
        (setBuild (setAssets (newReport dir) (CheckAssets dir root statE)) (CheckBuild dir root)), 1)
    else
      match (checkLighthouse perfTh a11yTh seoTh lhOut).2 with
      | some e =>
        screenshotsStage
          (setLighthouse (setBuild (setAssets (newReport dir) (CheckAssets dir root statE)) (CheckBuild dir root))
            { (checkLighthouse perfTh a11yTh seoTh lhOut).1 with status := "SKIP", details := e })
          ssOut apiKey statE readImg baseline threshold api
      | none =>
        if (checkLighthouse perfTh a11yTh seoTh lhOut).1.status = "FAIL" then
          (printSummaryModel
            (setLighthouse (setBuild (setAssets (newReport dir) (CheckAssets dir root statE)) (CheckBuild dir root))
              (checkLighthouse perfTh a11yTh seoTh lhOut).1), 1)
        else
          screenshotsStage
            (setLighthouse (setBuild (setAssets (newReport dir) (CheckAssets dir root statE)) (CheckBuild dir root))
              (checkLighthouse perfTh a11yTh seoTh lhOut).1)
            ssOut apiKey statE readImg baseline threshold api

/-! ## Specification-side definitions for the Tree Walker claims

`childrenFirstFiles` is written from the claim's words (direct child files
of a directory listed before the files found by recursing into its
subdirectories); `htmlFilesInOrder` is written from the amended description
(entries processed in sorted listing order, subdirectories expanded in
place). Both are compared against `findHTMLFiles` from the source. -/

/-- The `.html`/`.htm` files directly inside a listing, no recursion. -/
def directHTMLFiles (dir : String) : FSList → List String
  | .nil => []
  | .cons (.file n _) rest =>
    (if strHasSuffix n ".html" || strHasSuffix n ".htm" then [filepathJoin dir n] else []) ++
    directHTMLFiles dir rest
  | .cons _ rest => directHTMLFiles dir rest

/-- Recursion into the subdirectories of a listing, each subdirectory again
listing its direct children before its own subdirectories. -/
def recurseSubdirs (dir : String) : FSList → List String
  | .nil => []
  | .cons (.dirent n subs) rest =>
    directHTMLFiles (filepathJoin dir n) subs ++ recurseSubdirs (filepathJoin dir n) subs ++
    recurseSubdirs dir rest
  | .cons _ rest => recurseSubdirs dir rest

/-- The claim's walk order: per directory, direct child files first, then the
recursively found files. -/
def childrenFirstFiles (dir : String) (root : FSEntry) : List String :=
  match sortTree root with
  | .dirent _ es => directHTMLFiles dir es ++ recurseSubdirs dir es
  | _ => []

mutual

/-- Amended walk order, entry side: a matching file contributes its path, a
subdirectory is expanded at its position in the sorted listing. -/
def inOrderEntry (dir : String) (e : FSEntry) : List String :=
  match e with
  | .file n _ =>
    if strHasSuffix n ".html" || strHasSuffix n ".htm" then [filepathJoin dir n] else []
  | .unreadable _ => []
  | .dirent n subs => inOrderList (filepathJoin dir n) subs
termination_by structural e

/-- Amended walk order, listing side. -/
def inOrderList (dir : String) (l : FSList) : List String :=
  match l with
  | .nil => []
  | .cons e rest => inOrderEntry dir e ++ inOrderList dir rest
termination_by structural l

end

/-- The amended walk order on a whole tree. -/
def htmlFilesInOrder (dir : String) (root : FSEntry) : List String :=
  match sortTree root with
  | .dirent _ es => inOrderList dir es
  | _ => []

mutual

/-- Whether every directory in an entry is readable. -/
def entryReadable (e : FSEntry) : Bool :=
  match e with
  | .file _ _ => true
  | .unreadable _ => false
  | .dirent _ es => listReadable es
termination_by structural e

/-- Whether every directory in a listing is readable. -/
def listReadable (l : FSList) : Bool :=
  match l with
  | .nil => true
  | .cons e rest => entryReadable e && listReadable rest
termination_by structural l

end

/-! ## Reference bookkeeping used to state the Assets-check claims -/

/-- References of one discovered file (empty for an unreadable one; the
accounting lemmas assume every file parsed). -/
def entryRefs (e : String × Option Node) : List String :=
  match e.2 with
  | some doc => extractAssets doc
  | none => []

/-- All references of a run, in discovery order. -/
def refsOf : List (String × Option Node) → List String
  | [] => []
  | e :: rest => entryRefs e ++ refsOf rest

/-- The original reference strings whose resolved candidate paths are absent,
in discovery order. -/
def missingRefs (distDir : String) (statE : String → Bool)
    (entries : List (String × Option Node)) : List String :=
  (refsOf entries).filter fun a => !statE (resolveAsset distDir a)

/-! ## Concrete fixtures used by the claim theorems -/

/-- A root document with all six structural requirements and one image
reference. -/
def docFull : Node :=
  .other (.cons (.elem "html" [] (.cons
    (.elem "head" [] (.cons (.elem "title" [] .nil) (.cons
      (.elem "meta" [⟨"name", "description"⟩, ⟨"content", "d"⟩] .nil) (.cons
      (.elem "meta" [⟨"property", "og:title"⟩, ⟨"content", "t"⟩] .nil) .nil))))
    (.cons (.elem "body" [] (.cons (.elem "img" [⟨"src", "/images/a.png"⟩] .nil) .nil)) .nil)))
  .nil)

/-- A document declaring no asset references at all. -/
def docNoRefs : Node :=
  .other (.cons (.elem "html" [] .nil) .nil)

/-- A document referencing the same missing image twice. -/
def docTwoRefs : Node :=
  .other (.cons (.elem "body" []
    (.cons (.elem "img" [⟨"src", "x.png"⟩] .nil)
     (.cons (.elem "img" [⟨"src", "x.png"⟩] .nil) .nil))) .nil)

/-- A site directory with a single valid root document. -/
def fsSite : FSEntry :=
  .dirent "dist" (.cons (.file "index.html" (some docFull)) .nil)

/-- A site directory whose only document declares no references. -/
def fsNoRefs : FSEntry :=
  .dirent "dist" (.cons (.file "index.html" (some docNoRefs)) .nil)

/-- A site directory with a duplicate missing reference. -/
def fsTwoRefs : FSEntry :=
  .dirent "dist" (.cons (.file "index.html" (some docTwoRefs)) .nil)

/-- A site directory where the subdirectory `a` sorts before the direct child
file `b.html`. -/
def fsOrder : FSEntry :=
  .dirent "dist"
    (.cons (.dirent "a" (.cons (.file "x.html" none) .nil))
     (.cons (.file "b.html" none) .nil))

/-- A site directory with a valid root document and an unreadable
subdirectory. -/
def fsUnread : FSEntry :=
  .dirent "dist"
    (.cons (.file "index.html" (some docFull))
     (.cons (.unreadable "sub") .nil))

/-- The all-passing pipeline run used by the report-verdict claim: every
check succeeds and no baseline is supplied. -/
def c1Run : Report × Nat :=
  runMain "/d" fsSite (fun _ => true) 90 90 90 (.scores 95 98 100) .ok "" 7 "key"
    (fun _ => some "b64") (.ok "OVERALL: 9/10")

/-! # Theorems -/

/-- `goIndexOf` finds the first occurrence: the pattern is a prefix of the
suffix at the returned index and of no earlier suffix. -/
theorem goIndexOf_spec (sub : List Char) (s : List Char) (i : Nat)
    (h : goIndexOf sub s = some i) :
    sub.isPrefixOf (s.drop i) = true ∧ ∀ j, j < i → sub.isPrefixOf (s.drop j) = false := by
  induction s generalizing i with
  | nil =>
    unfold goIndexOf at h
    by_cases hp : sub.isPrefixOf ([] : List Char) = true
    · simp [hp] at h
      subst h
      exact ⟨hp, by omega⟩
    · rw [Bool.not_eq_true] at hp
      simp [hp] at h
  | cons c rest ih =>
    unfold goIndexOf at h
    by_cases hp : sub.isPrefixOf (c :: rest) = true
    · simp [hp] at h
      subst h
      exact ⟨hp, by omega⟩
    · rw [Bool.not_eq_true] at hp
      simp [hp, Option.map_eq_some'] at h
      obtain ⟨i', hi', rfl⟩ := h
      obtain ⟨h1, h2⟩ := ih i' hi'
      refine ⟨h1, ?_⟩
      intro j hj
      cases j with
      | zero => simpa using hp
      | succ j' =>
        have : j' < i' := by omega
        simpa using h2 j' this

/-- C4: for every reference starting with a slash, the resolver truncates at
the first occurrence of `/images/`, else at the first occurrence of
`/_astro/`, and prepends the site root by plain string concatenation; with
neither substring present (including `/favicon...` references) the reference
is concatenated unmodified. -/
theorem c4_root_relative_resolution (d r : String) (h : strHasPrefix r "/" = true) :
    (∀ i, strIndexOf r "/images/" = some i →
      resolveAsset d r = d ++ strDrop r i ∧
      "/images/".data.isPrefixOf (r.data.drop i) = true ∧
      ∀ j, j < i → "/images/".data.isPrefixOf (r.data.drop j) = false) ∧
    (strIndexOf r "/images/" = none →
      ∀ i, strIndexOf r "/_astro/" = some i →
        resolveAsset d r = d ++ strDrop r i ∧
        "/_astro/".data.isPrefixOf (r.data.drop i) = true ∧
        ∀ j, j < i → "/_astro/".data.isPrefixOf (r.data.drop j) = false) ∧
    (strIndexOf r "/images/" = none → strIndexOf r "/_astro/" = none →
      resolveAsset d r = d ++ r) := by
  refine ⟨?_, ?_, ?_⟩
  · intro i hi
    refine ⟨?_, goIndexOf_spec _ _ _ hi⟩
    simp [resolveAsset, h, hi]
  · intro hni i hi
    refine ⟨?_, goIndexOf_spec _ _ _ hi⟩
    simp [resolveAsset, h, hni, hi]
  · intro hni hna
    by_cases hf : strHasPrefix r "/favicon" = true <;>
      simp [resolveAsset, h, hni, hna, hf]

/-- Closed witness for the resolver claim, covering a truncated reference
with a deployment prefix and an untouched favicon reference. -/
theorem c4_witness :
    (strHasPrefix "/site/images/pic.png" "/" = true ∧
      resolveAsset "/dist" "/site/images/pic.png" = "/dist" ++ strDrop "/site/images/pic.png" 5) ∧
    (strHasPrefix "/favicon.ico" "/" = true ∧
      resolveAsset "/dist" "/favicon.ico" = "/dist" ++ "/favicon.ico") := by
  constructor
  · exact ⟨by decide,
      ((c4_root_relative_resolution "/dist" "/site/images/pic.png" (by decide)).1 5 (by decide)).1⟩
  · exact ⟨by decide,
      (c4_root_relative_resolution "/dist" "/favicon.ico" (by decide)).2.2 (by decide) (by decide)⟩

/-- C1: on a run where every gate passes (exit code 0), the report value
handed to `writeReport` — the serialized report — carries overall verdict
FAIL, not PASS: `printSummary` unconditionally resets the verdict before
serialization, contradicting the spec's invariant and the documented report
format. -/
theorem c1_allpass_serializes_fail :
    c1Run.1.checks.assets.status = "PASS" ∧
    c1Run.1.checks.build.status = "PASS" ∧
    c1Run.1.checks.lighthouse.status = "PASS" ∧
    c1Run.1.checks.screenshots.status = "PASS" ∧
    c1Run.1.checks.vision.status = "SKIP" ∧
    c1Run.2 = 0 ∧
    c1Run.1.overall = "FAIL" := by
  decide

/-- C2 counterexample: a site whose only HTML document declares zero
references gets Assets status PASS with Total 0, so PASS does not imply a
non-zero reference total as the claim states. -/
theorem c2_zero_refs_pass_cex :
    (CheckAssets "/d" fsNoRefs (fun _ => false)).status = "PASS" ∧
    (CheckAssets "/d" fsNoRefs (fun _ => false)).total = 0 ∧
    (CheckAssets "/d" fsNoRefs (fun _ => false)).missing = [] := by
  decide

/-- C2 amended: `CheckAssets` returns PASS exactly when the walk succeeded,
at least one HTML file was found, every file parsed, and the missing list is
empty — with no condition on the reference total. -/
theorem c2_amended_pass_iff (d : String) (root : FSEntry) (st : String → Bool) :
    (CheckAssets d root st).status = "PASS" ↔
      ∃ entries total, findHTMLEntries d root = .ok entries ∧ entries ≠ [] ∧
        processFiles d st entries = some (total, []) := by
  constructor
  · intro h
    unfold CheckAssets at h
    cases hw : findHTMLEntries d root with
    | error e =>
      simp only [hw] at h
      exact absurd (h : ("FAIL" : String) = "PASS") (by decide)
    | ok entries =>
      simp only [hw] at h
      by_cases hlen : entries.length = 0
      · rw [if_pos hlen] at h
        exact absurd (h : ("FAIL" : String) = "PASS") (by decide)
      · rw [if_neg hlen] at h
        cases hp : processFiles d st entries with
        | none =>
          simp only [hp] at h
          exact absurd (h : ("FAIL" : String) = "PASS") (by decide)
        | some tm =>
          obtain ⟨total, missing⟩ := tm
          simp only [hp] at h
          by_cases hm : 0 < missing.length
          · rw [if_pos hm] at h
            have h2 : ("FAIL" : String) = "PASS" := h
            exact absurd h2 (by decide)
          · refine ⟨entries, total, rfl, ?_, ?_⟩
            · intro hne
              exact hlen (by simp [hne])
            · have hmnil : missing = [] := List.length_eq_zero.mp (by omega)
              rw [hp, hmnil]
  · rintro ⟨entries, total, hw, hne, hp⟩
    unfold CheckAssets
    simp only [hw]
    rw [if_neg fun hlen => hne (List.length_eq_zero.mp hlen)]
    simp only [hp]
    rfl

/-- The head of `strings.Split part sep` is the prefix of `part` before the
first separator. -/
theorem headD_splitOnChar (sep : Char) (l : List Char) :
    (splitOnChar sep l).headD [] = l.takeWhile (fun c => c ≠ sep) := by
  induction l with
  | nil => rfl
  | cons c cs ih =>
    unfold splitOnChar
    rw [List.takeWhile_cons]
    by_cases hc : c = sep
    · rw [if_pos hc]
      have hd : (decide (c ≠ sep)) = false := by simp [hc]
      rw [hd]
      rfl
    · rw [if_neg hc]
      have hd : (decide (c ≠ sep)) = true := by simp [hc]
      rw [hd]
      cases hs : splitOnChar sep cs with
      | nil =>
        rw [hs] at ih
        simp only [List.headD] at ih
        show [c] = c :: List.takeWhile (fun x => decide (x ≠ sep)) cs
        rw [← ih]
      | cons h t =>
        rw [hs] at ih
        simp only [List.headD] at ih
        show c :: h = c :: List.takeWhile (fun x => decide (x ≠ sep)) cs
        rw [← ih]

/-- C6 counterexample: a `srcset` candidate list with a space after the comma
loses its second URL — `'a.webp, b.jpg 2x'` extracts only `a.webp`, because
`strings.Split(part, " ")[0]` of `' b.jpg 2x'` is the empty string, which is
discarded after trimming. -/
theorem c6_srcset_space_cex :
    extractAssets (.elem "source" [⟨"srcset", "a.webp, b.jpg 2x"⟩] .nil) = ["a.webp"] ∧
    extractAssets (.elem "source" [⟨"srcset", "a.webp, b.jpg 2x"⟩] .nil) ≠ ["a.webp", "b.jpg"] := by
  constructor
  · rfl
  · intro h
    rw [(rfl : extractAssets (.elem "source" [⟨"srcset", "a.webp, b.jpg 2x"⟩] .nil) = ["a.webp"])] at h
    exact absurd h (by decide)

/-- C6 amended: for each comma-separated candidate the extractor keeps the
candidate's prefix before the first space character, trimmed, when non-empty;
a candidate written with a space after the comma therefore yields the empty
token and is dropped, while without the space both URLs survive. -/
theorem c6_amended_srcset_tokens :
    (∀ v : String, parseSrcsetVal v = (splitOnChar ',' v.data).filterMap fun part =>
      let tok := goTrimSpace (part.takeWhile (fun c => c ≠ ' '))
      if tok.isEmpty then none else some (String.mk tok)) ∧
    parseSrcsetVal "a.webp, b.jpg 2x" = ["a.webp"] ∧
    parseSrcsetVal "a.webp,b.jpg 2x" = ["a.webp", "b.jpg"] ∧
    elemAssets "source" [⟨"srcset", "a.webp, b.jpg 2x"⟩] = ["a.webp"] := by
  refine ⟨?_, rfl, rfl, rfl⟩
  intro v
  unfold parseSrcsetVal
  congr 1
  funext part
  rw [headD_splitOnChar]

/-- C7 counterexample: with a subdirectory `a` sorting before the direct
child file `b.html`, the walk emits the recursed file first, so the claimed
children-before-subdirectories order does not hold. -/
theorem c7_children_first_cex :
    findHTMLFiles "/d" fsOrder = .ok ["/d/a/x.html", "/d/b.html"] ∧
    childrenFirstFiles "/d" fsOrder = ["/d/b.html", "/d/a/x.html"] ∧
    ["/d/a/x.html", "/d/b.html"] ≠ ["/d/b.html", "/d/a/x.html"] := by
  refine ⟨rfl, rfl, by decide⟩

/-- C10 counterexample: a digit string overflowing Go's 64-bit int makes
`strconv.Atoi` fail, so the fallback pattern matches the `10` of `/10` and
the function does not return the digit string's value; and `OVERALL: 0/10`
returns 0 although the OVERALL pattern occurs. -/
theorem c10_overflow_cex :
    parseScoreFromAnalysis "OVERALL: 9223372036854775808/10" = 10 ∧
    parseScoreFromAnalysis "OVERALL: 9223372036854775808/10" ≠ 9223372036854775808 ∧
    parseScoreFromAnalysis "OVERALL: 0/10" = 0 := by
  refine ⟨by decide, ?_, by decide⟩
  intro h
  rw [(by decide : parseScoreFromAnalysis "OVERALL: 9223372036854775808/10" = 10)] at h
  exact absurd h (by decide)

/-- When every discovered file parsed, the verification loop returns the
total reference count and the ordered missing list of original reference
strings. -/
theorem processFiles_all_parsed (d : String) (st : String → Bool)
    (entries : List (String × Option Node)) (hp : ∀ e ∈ entries, e.2.isSome = true) :
    processFiles d st entries = some ((refsOf entries).length, missingRefs d st entries) := by
  induction entries with
  | nil => rfl
  | cons e rest ih =>
    obtain ⟨p, doc⟩ := e
    cases doc with
    | none =>
      have := hp (p, none) (List.mem_cons_self _ _)
      simp at this
    | some docv =>
      have hrest : ∀ e ∈ rest, e.2.isSome = true := fun e he => hp e (List.mem_cons_of_mem _ he)
      unfold processFiles
      rw [ih hrest]
      have h1 : refsOf ((p, some docv) :: rest) = extractAssets docv ++ refsOf rest := rfl
      have h2 : missingRefs d st ((p, some docv) :: rest) =
          (extractAssets docv).filter (fun a => !st (resolveAsset d a)) ++ missingRefs d st rest := by
        unfold missingRefs
        rw [h1, List.filter_append]
      rw [h1, h2, List.length_append]

/-- C5: when the walk succeeds and every file parses, CheckAssets with M of
the N extracted references missing (M ≥ 1, duplicates counted individually)
reports FAIL, Total = N, and a Missing list that is exactly the ordered
filter of the original reference strings whose resolved paths are absent. -/
theorem c5_missing_accounting (d : String) (root : FSEntry) (st : String → Bool)
    (entries : List (String × Option Node)) (N M : Nat)
    (hwalk : findHTMLEntries d root = .ok entries)
    (hparsed : ∀ e ∈ entries, e.2.isSome = true)
    (hN : (refsOf entries).length = N)
    (hM : (missingRefs d st entries).length = M)
    (hM1 : 0 < M) :
    (CheckAssets d root st).status = "FAIL" ∧
    (CheckAssets d root st).total = N ∧
    (CheckAssets d root st).missing = missingRefs d st entries ∧
    (CheckAssets d root st).missing.length = M ∧
    M ≤ N := by
  have hMN : M ≤ N := by
    rw [← hN, ← hM]
    exact List.length_filter_le _ _
  have hne : entries.length ≠ 0 := by
    intro h0
    have h1 : entries = [] := List.length_eq_zero.mp h0
    subst h1
    have hM0 : M = 0 := by
      rw [← hM]
      rfl
    omega
  have hgoal : CheckAssets d root st =
      if 0 < (missingRefs d st entries).length then
        ⟨"FAIL", (refsOf entries).length, missingRefs d st entries,
          "Missing " ++ toString (missingRefs d st entries).length ++ " assets"⟩
      else
        ⟨"PASS", (refsOf entries).length, missingRefs d st entries,
          toString (refsOf entries).length ++ "/" ++ toString (refsOf entries).length ++
            " assets verified"⟩ := by
    unfold CheckAssets
    simp only [hwalk]
    rw [if_neg hne, processFiles_all_parsed d st entries hparsed]
  rw [hgoal, if_pos (by omega : 0 < (missingRefs d st entries).length)]
  exact ⟨rfl, hN, rfl, hM, hMN⟩

/-- Closed witness for the accounting claim: one document referencing the
same absent image twice gives Total 2 and the duplicate-preserving missing
list in discovery order. -/
theorem c5_witness :
    (CheckAssets "/d" fsTwoRefs (fun _ => false)).status = "FAIL" ∧
    (CheckAssets "/d" fsTwoRefs (fun _ => false)).total = 2 ∧
    (CheckAssets "/d" fsTwoRefs (fun _ => false)).missing =
      missingRefs "/d" (fun _ => false) [("/d/index.html", some docTwoRefs)] ∧
    (CheckAssets "/d" fsTwoRefs (fun _ => false)).missing.length = 2 ∧
    2 ≤ 2 :=
  c5_missing_accounting "/d" fsTwoRefs (fun _ => false)
    [("/d/index.html", some docTwoRefs)] 2 2 rfl (by decide) rfl rfl (by decide)

/-- C9: when the root document satisfies all six structural requirements but
the recursive walk fails, `CheckBuild` silently discards the error and
reports PASS with a page count of zero. -/
theorem c9_walk_error_discarded (d : String) (root : FSEntry) (doc : Node) (er : String)
    (hidx : lookupIndexDoc root = some (some doc))
    (hflags : scanBuildDoc doc = ⟨true, true, true, true, true, true⟩)
    (herr : findHTMLFiles d root = .error er) :
    (CheckBuild d root).status = "PASS" ∧ (CheckBuild d root).pages = 0 := by
  unfold CheckBuild
  simp only [hidx, hflags, herr]
  exact ⟨rfl, rfl⟩

/-- Closed witness: a valid root document next to an unreadable subdirectory
still yields Build PASS with Pages 0. -/
theorem c9_witness :
    (CheckBuild "/d" fsUnread).status = "PASS" ∧ (CheckBuild "/d" fsUnread).pages = 0 :=
  c9_walk_error_discarded "/d" fsUnread docFull "open /d/sub: permission denied"
    rfl (by decide) rfl

mutual

/-- On a readable entry the walk succeeds and its paths are the in-order
listing. -/
theorem walkEntryReadable (e : FSEntry) : ∀ dir, entryReadable e = true →
    ∃ xs, walkEntry dir e = .ok xs ∧ xs.map Prod.fst = inOrderEntry dir e :=
  match e with
  | .file n doc => fun dir _ => by
    by_cases hs : (strHasSuffix n ".html" || strHasSuffix n ".htm") = true
    · refine ⟨[(filepathJoin dir n, doc)], ?_, ?_⟩
      · show (if strHasSuffix n ".html" || strHasSuffix n ".htm" then
            Except.ok [(filepathJoin dir n, doc)] else .ok []) = _
        rw [if_pos hs]
      · show _ = (if strHasSuffix n ".html" || strHasSuffix n ".htm" then
            [filepathJoin dir n] else [])
        rw [if_pos hs]
        rfl
    · refine ⟨[], ?_, ?_⟩
      · show (if strHasSuffix n ".html" || strHasSuffix n ".htm" then
            Except.ok [(filepathJoin dir n, doc)] else .ok []) = _
        rw [if_neg hs]
      · show _ = (if strHasSuffix n ".html" || strHasSuffix n ".htm" then
            [filepathJoin dir n] else [])
        rw [if_neg hs]
        rfl
  | .unreadable n => fun dir h => by
    exact absurd h (by simp [entryReadable])
  | .dirent n subs => fun dir h => by
    have h' : listReadable subs = true := by
      rw [← h]
      rfl
    exact walkListReadable subs (filepathJoin dir n) h'
termination_by structural e

/-- On a readable listing the walk succeeds and its paths are the in-order
listing. -/
theorem walkListReadable (l : FSList) : ∀ dir, listReadable l = true →
    ∃ xs, walkList dir l = .ok xs ∧ xs.map Prod.fst = inOrderList dir l :=
  match l with
  | .nil => fun dir _ => ⟨[], rfl, rfl⟩
  | .cons e rest => fun dir h => by
    have hpair : entryReadable e = true ∧ listReadable rest = true := by
      have h2 : (entryReadable e && listReadable rest) = true := h
      exact Bool.and_eq_true_iff.mp h2
    obtain ⟨xs, hxs, hmapx⟩ := walkEntryReadable e dir hpair.1
    obtain ⟨ys, hys, hmapy⟩ := walkListReadable rest dir hpair.2
    refine ⟨xs ++ ys, ?_, ?_⟩
    · show (match walkEntry dir e with
        | .error er => Except.error er
        | .ok contrib =>
          match walkList dir rest with
          | .error er => Except.error er
          | .ok more => Except.ok (contrib ++ more)) = Except.ok (xs ++ ys)
      rw [hxs, hys]
    · show (xs ++ ys).map Prod.fst = inOrderEntry dir e ++ inOrderList dir rest
      rw [List.map_append, hmapx, hmapy]
termination_by structural l

end

/-- C7 amended: for every readable tree the walk succeeds and returns
exactly the `.html`/`.htm` files in sorted-listing depth-first order, each
subdirectory expanded at its position in the listing (so recursed files can
precede a directory's own later children). -/
theorem c7_amended_walk_order (dir : String) (root : FSEntry) (nm : String) (es : FSList)
    (hs : sortTree root = .dirent nm es) (hr : listReadable es = true) :
    findHTMLFiles dir root = .ok (htmlFilesInOrder dir root) := by
  obtain ⟨xs, hxs, hmap⟩ := walkListReadable es dir hr
  unfold findHTMLFiles findHTMLEntries htmlFilesInOrder
  rw [hs]
  show Except.map (List.map Prod.fst) (walkList dir es) = Except.ok (inOrderList dir es)
  rw [hxs]
  show Except.ok (xs.map Prod.fst) = Except.ok (inOrderList dir es)
  rw [hmap]

/-- Closed witness: the readable two-level tree evaluates to the in-order
file list. -/
theorem c7_witness :
    findHTMLFiles "/d" fsOrder = .ok (htmlFilesInOrder "/d" fsOrder) :=
  c7_amended_walk_order "/d" fsOrder "dist"
    (.cons (.dirent "a" (.cons (.file "x.html" none) .nil))
     (.cons (.file "b.html" none) .nil))
    rfl (by decide)

/-- Every erroring exit of `CaptureScreenshots` carries result status FAIL. -/
theorem captureScreenshots_err_fail (o : ScreenshotOutcome) (e : String)
    (h : (captureScreenshots o).2 = some e) :
    (captureScreenshots o).1.status = "FAIL" := by
  cases o <;> simp_all [captureScreenshots]

/-- Without a baseline the vision stage stores the fixed SKIP record and
finishes with exit code 0, independent of credential, image reads, and the
API outcome. -/
theorem visionStage_no_baseline (r : Report) (apiKey : String) (statE : String → Bool)
    (readImg : String → Option String) (thr : Int) (api : Except String String) :
    visionStage r apiKey statE readImg "" thr api =
      (printSummaryModel
        { setVision r ⟨"SKIP", 0, thr, "", "No baseline provided"⟩ with overall := "PASS" }, 0) := by
  unfold visionStage
  rw [if_neg (by simp)]

/-- C3 counterexample: a run where the capture itself errors (tool ran, the
desktop automation failed) records the report's Screenshots result as SKIP —
not FAIL as the claim states — and the pipeline continues to exit 0. -/
theorem c3_capture_failure_recorded_skip_cex :
    (captureScreenshots (.desktopRunFail "chromedp run error")).1.status = "FAIL" ∧
    (runMain "/d" fsSite (fun _ => true) 90 90 90 (.scores 95 98 100)
      (.desktopRunFail "chromedp run error") "" 7 "key" (fun _ => some "b64")
      (.ok "OVERALL: 9/10")).1.checks.screenshots.status = "SKIP" ∧
    (runMain "/d" fsSite (fun _ => true) 90 90 90 (.scores 95 98 100)
      (.desktopRunFail "chromedp run error") "" 7 "key" (fun _ => some "b64")
      (.ok "OVERALL: 9/10")).1.checks.screenshots.status ≠ "FAIL" ∧
    (runMain "/d" fsSite (fun _ => true) 90 90 90 (.scores 95 98 100)
      (.desktopRunFail "chromedp run error") "" 7 "key" (fun _ => some "b64")
      (.ok "OVERALL: 9/10")).2 = 0 := by
  decide

/-- C3 amended: when the capture errors, `CaptureScreenshots` itself returns
a FAIL-status result with a non-nil error, but the call site overwrites the
recorded status to SKIP — exactly as for an unavailable tool — and the
pipeline continues to the vision stage and can exit 0. -/
theorem c3_amended_capture_error_recorded_skip (o : ScreenshotOutcome) (e : String)
    (ho : (captureScreenshots o).2 = some e)
    (dir : String) (root : FSEntry) (statE : String → Bool) (pt aT sT : Int)
    (lhOut : LighthouseOutcome) (thr : Int) (apiKey : String)
    (readImg : String → Option String) (api : Except String String)
    (hA : (CheckAssets dir root statE).status ≠ "FAIL")
    (hB : (CheckBuild dir root).status ≠ "FAIL")
    (hL : ¬((checkLighthouse pt aT sT lhOut).2 = none ∧
            (checkLighthouse pt aT sT lhOut).1.status = "FAIL")) :
    (captureScreenshots o).1.status = "FAIL" ∧
    (runMain dir root statE pt aT sT lhOut o "" thr apiKey readImg api).1.checks.screenshots.status = "SKIP" ∧
    (runMain dir root statE pt aT sT lhOut o "" thr apiKey readImg api).1.checks.screenshots.details = e ∧
    (runMain dir root statE pt aT sT lhOut o "" thr apiKey readImg api).1.checks.vision.status = "SKIP" ∧
    (runMain dir root statE pt aT sT lhOut o "" thr apiKey readImg api).2 = 0 := by
  have key : ∃ rep : Report,
      runMain dir root statE pt aT sT lhOut o "" thr apiKey readImg api = (rep, 0) ∧
      rep.checks.screenshots.status = "SKIP" ∧ rep.checks.screenshots.details = e ∧
      rep.checks.vision.status = "SKIP" := by
    unfold runMain
    rw [if_neg hA, if_neg hB]
    have hscr : ∀ r : Report, ∃ rep : Report,
        screenshotsStage r o apiKey statE readImg "" thr api = (rep, 0) ∧
        rep.checks.screenshots.status = "SKIP" ∧ rep.checks.screenshots.details = e ∧
        rep.checks.vision.status = "SKIP" := by
      intro r
      unfold screenshotsStage
      simp only [ho]
      rw [visionStage_no_baseline]
      exact ⟨_, rfl, rfl, rfl, rfl⟩
    cases hc : (checkLighthouse pt aT sT lhOut).2 with
    | some e2 => exact hscr _
    | none =>
      rw [if_neg fun hf => hL ⟨hc, hf⟩]
      exact hscr _
  obtain ⟨rep, hr, h1, h2, h3⟩ := key
  rw [hr]
  exact ⟨captureScreenshots_err_fail o e ho, h1, h2, h3, rfl⟩

/-- Closed witness: a concrete failing desktop capture on an otherwise
all-passing run is recorded as SKIP while the run exits 0. -/
theorem c3_witness :
    (captureScreenshots (.desktopRunFail "boom")).1.status = "FAIL" ∧
    (runMain "/d" fsSite (fun _ => true) 90 90 90 (.scores 95 98 100) (.desktopRunFail "boom")
      "" 7 "key" (fun _ => some "b64") (.ok "OVERALL: 9/10")).1.checks.screenshots.status = "SKIP" ∧
    (runMain "/d" fsSite (fun _ => true) 90 90 90 (.scores 95 98 100) (.desktopRunFail "boom")
      "" 7 "key" (fun _ => some "b64") (.ok "OVERALL: 9/10")).1.checks.screenshots.details = "boom" ∧
    (runMain "/d" fsSite (fun _ => true) 90 90 90 (.scores 95 98 100) (.desktopRunFail "boom")
      "" 7 "key" (fun _ => some "b64") (.ok "OVERALL: 9/10")).1.checks.vision.status = "SKIP" ∧
    (runMain "/d" fsSite (fun _ => true) 90 90 90 (.scores 95 98 100) (.desktopRunFail "boom")
      "" 7 "key" (fun _ => some "b64") (.ok "OVERALL: 9/10")).2 = 0 :=
  c3_amended_capture_error_recorded_skip (.desktopRunFail "boom") "boom" rfl
    "/d" fsSite (fun _ => true) 90 90 90 (.scores 95 98 100) 7 "key"
    (fun _ => some "b64") (.ok "OVERALL: 9/10") (by decide) (by decide) (by decide)

/-- Whatever the screenshots outcome, with no baseline the run records the
fixed vision SKIP record and exits 0. -/
theorem screenshotsStage_no_baseline_facts (r : Report) (ssOut : ScreenshotOutcome)
    (apiKey : String) (statE : String → Bool) (readImg : String → Option String)
    (thr : Int) (api : Except String String) :
    (screenshotsStage r ssOut apiKey statE readImg "" thr api).1.checks.vision.status = "SKIP" ∧
    (screenshotsStage r ssOut apiKey statE readImg "" thr api).1.checks.vision.details =
      "No baseline provided" ∧
    (screenshotsStage r ssOut apiKey statE readImg "" thr api).2 = 0 := by
  unfold screenshotsStage
  cases (captureScreenshots ssOut).2 with
  | some e => exact ⟨rfl, rfl, rfl⟩
  | none => exact ⟨rfl, rfl, rfl⟩

/-- C8 counterexample: on a run without a baseline, the stored Vision detail
string is "No baseline provided", not the claimed "no baseline provided"
(the lowercase text is only the console line). -/
theorem c8_detail_string_cex :
    c1Run.1.checks.vision.status = "SKIP" ∧
    c1Run.1.checks.vision.details = "No baseline provided" ∧
    c1Run.1.checks.vision.details ≠ "no baseline provided" := by
  decide

/-- C8 amended: with no baseline supplied, the pipeline result is identical
for any credential, image-read and API outcomes (the vision collaborators
are never consulted); any run that finishes with exit 0 carries the Vision
SKIP record with detail "No baseline provided"; and a concrete all-passing
run indeed exits 0. -/
theorem c8_amended_no_baseline_skip :
    (∀ (dir : String) (root : FSEntry) (statE : String → Bool) (pt aT sT : Int)
      (lhOut : LighthouseOutcome) (ssOut : ScreenshotOutcome) (thr : Int)
      (k1 k2 : String) (rf1 rf2 : String → Option String) (api1 api2 : Except String String),
      runMain dir root statE pt aT sT lhOut ssOut "" thr k1 rf1 api1 =
      runMain dir root statE pt aT sT lhOut ssOut "" thr k2 rf2 api2) ∧
    (∀ (dir : String) (root : FSEntry) (statE : String → Bool) (pt aT sT : Int)
      (lhOut : LighthouseOutcome) (ssOut : ScreenshotOutcome) (thr : Int)
      (k : String) (rf : String → Option String) (api : Except String String),
      (runMain dir root statE pt aT sT lhOut ssOut "" thr k rf api).2 = 0 →
      (runMain dir root statE pt aT sT lhOut ssOut "" thr k rf api).1.checks.vision.status = "SKIP" ∧
      (runMain dir root statE pt aT sT lhOut ssOut "" thr k rf api).1.checks.vision.details =
        "No baseline provided") ∧
    c1Run.2 = 0 := by
  refine ⟨?_, ?_, by decide⟩
  · intro dir root statE pt aT sT lhOut ssOut thr k1 k2 rf1 rf2 api1 api2
    have hscr : ∀ r : Report,
        screenshotsStage r ssOut k1 statE rf1 "" thr api1 =
        screenshotsStage r ssOut k2 statE rf2 "" thr api2 := by
      intro r
      unfold screenshotsStage
      simp only [visionStage_no_baseline]
    unfold runMain
    by_cases hA : (CheckAssets dir root statE).status = "FAIL"
    · rw [if_pos hA, if_pos hA]
    · rw [if_neg hA, if_neg hA]
      by_cases hB : (CheckBuild dir root).status = "FAIL"
      · rw [if_pos hB, if_pos hB]
      · rw [if_neg hB, if_neg hB]
        simp only [hscr]
  · intro dir root statE pt aT sT lhOut ssOut thr k rf api h
    unfold runMain at h ⊢
    by_cases hA : (CheckAssets dir root statE).status = "FAIL"
    · rw [if_pos hA] at h
      have h1 : (1 : Nat) = 0 := h
      exact absurd h1 (by decide)
    · rw [if_neg hA] at h ⊢
      by_cases hB : (CheckBuild dir root).status = "FAIL"
      · rw [if_pos hB] at h
        have h1 : (1 : Nat) = 0 := h
        exact absurd h1 (by decide)
      · rw [if_neg hB] at h ⊢
        cases hc : (checkLighthouse pt aT sT lhOut).2 with
        | some e =>
          exact ⟨(screenshotsStage_no_baseline_facts _ ssOut k statE rf thr api).1,
            (screenshotsStage_no_baseline_facts _ ssOut k statE rf thr api).2.1⟩
        | none =>
          rw [hc] at h
          by_cases hf : (checkLighthouse pt aT sT lhOut).1.status = "FAIL"
          · rw [if_pos hf] at h
            have h1 : (1 : Nat) = 0 := h
            exact absurd h1 (by decide)
          · rw [if_neg hf]
            exact ⟨(screenshotsStage_no_baseline_facts _ ssOut k statE rf thr api).1,
              (screenshotsStage_no_baseline_facts _ ssOut k statE rf thr api).2.1⟩

/-- Closed witness: the amended no-baseline theorem applied to the concrete
all-passing run. -/
theorem c8_witness :
    c1Run.1.checks.vision.status = "SKIP" ∧
    c1Run.1.checks.vision.details = "No baseline provided" :=
  c8_amended_no_baseline_skip.2.1 "/d" fsSite (fun _ => true) 90 90 90
    (.scores 95 98 100) .ok 7 "key" (fun _ => some "b64") (.ok "OVERALL: 9/10") (by decide)

/-- A successful anchored OVERALL match captures a non-empty digit run. -/
theorem matchOverallAt_digits (l d : List Char) (h : matchOverallAt l = some d) :
    d.isEmpty = false := by
  unfold matchOverallAt at h
  cases hs : stripLit "OVERALL:".data l with
  | none =>
    rw [hs] at h
    exact Option.noConfusion h
  | some r1 =>
    simp only [hs] at h
    by_cases hd : ((r1.dropWhile isSpaceRe).takeWhile Char.isDigit).isEmpty = true
    · rw [if_pos hd] at h
      exact Option.noConfusion h
    · rw [if_neg hd] at h
      split at h
      · split at h
        · cases h
          simp only [Bool.not_eq_true] at hd
          exact hd
        · exact Option.noConfusion h
      · exact Option.noConfusion h

/-- The leftmost OVERALL match captures a non-empty digit run. -/
theorem findOverall_digits (l d : List Char) (h : findOverall l = some d) :
    d.isEmpty = false := by
  induction l with
  | nil =>
    have h0 : findOverall ([] : List Char) = none := rfl
    rw [h0] at h
    exact Option.noConfusion h
  | cons c rest ih =>
    unfold findOverall at h
    cases hm : matchOverallAt (c :: rest) with
    | some d2 =>
      simp only [hm] at h
      cases h
      exact matchOverallAt_digits _ _ hm
    | none =>
      simp only [hm] at h
      exact ih h

/-- The fallback pattern only ever reports a value of at least 1. -/
theorem findOneToTen_pos (l : List Char) : ∀ prev v, findOneToTen prev l = some v → 1 ≤ v := by
  induction l with
  | nil =>
    intro prev v h
    exact Option.noConfusion h
  | cons c rest ih =>
    intro prev v h
    unfold findOneToTen at h
    by_cases h1 : (boundLeft prev && decide (49 ≤ c.toNat) && decide (c.toNat ≤ 57) &&
        (rest.isEmpty || !isWordRe (rest.headD ' '))) = true
    · rw [if_pos h1] at h
      cases h
      simp only [Bool.and_eq_true, decide_eq_true_eq] at h1
      have h0 : '0'.toNat = 48 := rfl
      rw [h0]
      omega
    · rw [if_neg h1] at h
      by_cases h2 : (boundLeft prev && c = '1' && rest.head? = some '0' &&
          ((rest.drop 1).isEmpty || !isWordRe ((rest.drop 1).headD ' '))) = true
      · rw [if_pos h2] at h
        cases h
        decide
      · rw [if_neg h2] at h
        exact ih (some c) v h

/-- C10 amended: the OVERALL score is returned without clamping for every
digit run whose value fits Go's 64-bit signed int (so the recorded score can
exceed 10); a zero result arises only when the OVERALL digits themselves
parse to 0 or the standalone 1–10 fallback finds nothing — digit runs beyond
the int64 range make `strconv.Atoi` fail and fall through to the fallback. -/
theorem c10_amended_parse_score (analysis : String) :
    (∀ digits : List Char, findOverall analysis.data = some digits →
      digitsToNat digits ≤ 9223372036854775807 →
      parseScoreFromAnalysis analysis = ((digitsToNat digits : Nat) : Int)) ∧
    (parseScoreFromAnalysis analysis = 0 →
      (∃ digits, findOverall analysis.data = some digits ∧ goAtoi digits = some 0) ∨
      findOneToTen none analysis.data = none) := by
  constructor
  · intro digits hf hle
    have hne : digits.isEmpty = false := findOverall_digits _ _ hf
    have hg : goAtoi digits = some ((digitsToNat digits : Nat) : Int) := by
      unfold goAtoi
      rw [hne]
      rw [if_neg (by decide : ¬(false = true)), if_pos hle]
    unfold parseScoreFromAnalysis
    simp only [hf, hg]
  · intro h0
    unfold parseScoreFromAnalysis at h0
    cases hf : findOverall analysis.data with
    | none =>
      simp only [hf] at h0
      right
      cases hfb : findOneToTen none analysis.data with
      | none => rfl
      | some v =>
        simp only [hfb] at h0
        have hv : (1 : Int) ≤ v := findOneToTen_pos analysis.data none v hfb
        have h1 : v = 0 := h0
        omega
    | some digits =>
      simp only [hf] at h0
      cases hat : goAtoi digits with
      | some v =>
        simp only [hat] at h0
        left
        exact ⟨digits, rfl, h0 ▸ hat⟩
      | none =>
        simp only [hat] at h0
        right
        cases hfb : findOneToTen none analysis.data with
        | none => rfl
        | some v =>
          simp only [hfb] at h0
          have hv : (1 : Int) ≤ v := findOneToTen_pos analysis.data none v hfb
          have h1 : v = 0 := h0
          omega

/-- Closed witness: applying the amended theorem at `OVERALL: 42/10` returns
42, a score beyond the 1–10 scale. -/
theorem c10_witness :
    parseScoreFromAnalysis "OVERALL: 42/10" = 42 ∧ (10 : Int) < 42 := by
  constructor
  · exact (c10_amended_parse_score "OVERALL: 42/10").1 "42".data rfl (by decide)
  · decide

end SiteForge
